import Mathlib

/-!
Shallow embedding of the indicator & recommendation engine of `src/app.py`
(a Streamlit stock-analysis dashboard).  Prices are modelled as exact
rationals; a pandas column that may hold NaN is modelled as
`List (Option ℚ)` where `none` stands for NaN.  A Python float comparison
with NaN is `False`, which the embedding mirrors by matching on `Option`
(the `none` branch behaves like a failed comparison).
-/

namespace StockApp

/-- Collect a list of options: `some` of the value list when every entry is
`some`, `none` as soon as one entry is `none`.  Used to model a pandas
rolling window whose mean is NaN whenever the window contains a NaN. -/
def allSome : List (Option ℚ) → Option (List ℚ)
  | [] => some []
  | none :: _ => none
  | some a :: rest => (allSome rest).map (fun l => a :: l)

/-- The trailing window of width `w` ending at index `i`:
entries at indices `i + 1 - w` through `i`. -/
def rollingWindow (w : Nat) (xs : List (Option ℚ)) (i : Nat) : List (Option ℚ) :=
  (xs.drop (i + 1 - w)).take w

/-- `Series.rolling(w).mean()` at index `i` (pandas semantics, default
`min_periods = w`): NaN for `i + 1 < w`, otherwise the mean of the trailing
`w` entries, NaN if any of them is NaN. -/
def rollingMeanAt (w : Nat) (xs : List (Option ℚ)) (i : Nat) : Option ℚ :=
  if w ≤ i + 1 then (allSome (rollingWindow w xs i)).map (fun vs => vs.sum / (w : ℚ))
  else none

/-- `Series.rolling(w).mean()` as a column of the same length. -/
def rollingMean (w : Nat) (xs : List (Option ℚ)) : List (Option ℚ) :=
  (List.range xs.length).map (rollingMeanAt w xs)

/-- `df["Close"].rolling(20).mean()` — the SMA-20 column (app.py line 44). -/
def smaCol (closes : List ℚ) : List (Option ℚ) :=
  rollingMean 20 (closes.map some)

/-- `df["Close"].ewm(span=20, adjust=False).mean()` at index `i`
(app.py line 45): the documented adjust=false recurrence with
smoothing factor 2/(20+1). -/
def emaAt (closes : List ℚ) : Nat → ℚ
  | 0 => closes.getD 0 0
  | i + 1 => closes.getD (i + 1) 0 * (2 / 21) + emaAt closes i * (1 - 2 / 21)

/-- The EMA-20 column (same length as the close column, never NaN). -/
def emaCol (closes : List ℚ) : List ℚ :=
  (List.range closes.length).map (emaAt closes)

/-- `df["Close"].diff()` (app.py line 46): NaN at index 0,
`close[i] - close[i-1]` afterwards. -/
def deltaCol (closes : List ℚ) : List (Option ℚ) :=
  match closes with
  | [] => []
  | _ :: tl => none :: List.zipWith (fun b a => some (b - a)) tl closes

/-- `delta.mask(delta < 0, 0)` (app.py line 47): negative moves become 0,
NaN stays NaN. -/
def gainCol (closes : List ℚ) : List (Option ℚ) :=
  (deltaCol closes).map (Option.map (fun d => if d < 0 then 0 else d))

/-- `(-delta.mask(delta > 0, 0))` (app.py line 48): positive moves become 0,
the rest is negated, NaN stays NaN. -/
def lossCol (closes : List ℚ) : List (Option ℚ) :=
  (deltaCol closes).map (Option.map (fun d => if 0 < d then 0 else -d))

/-- One entry of `100 - (100 / (1 + gain/loss))` (app.py lines 49-50) under
IEEE-754 semantics: with `loss = 0` and `gain > 0` the ratio is +inf and the
RSI collapses to 100; with `loss = 0 = gain` the ratio is NaN and so is the
RSI; any NaN input stays NaN. -/
def rsiAt (g l : Option ℚ) : Option ℚ :=
  match g, l with
  | some g, some l =>
      if l = 0 then (if g = 0 then none else some 100)
      else some (100 - 100 / (1 + g / l))
  | _, _ => none

/-- The RSI column assigned to `df["RSI"]` (app.py line 50). -/
def rsiCol (closes : List ℚ) : List (Option ℚ) :=
  List.zipWith rsiAt (rollingMean 14 (gainCol closes)) (rollingMean 14 (lossCol closes))

/-- The fetched dataframe: the close column plus the three indicator columns
that `buying_recommendation` assigns into it (absent until assigned). -/
structure DataFrame where
  close : List ℚ
  sma20 : Option (List (Option ℚ)) := none
  ema20 : Option (List ℚ) := none
  rsi : Option (List (Option ℚ)) := none
deriving DecidableEq

/-- `buying_recommendation(df)` (app.py lines 42-60).  The column
assignments mutate the dataframe before `df.iloc[-1]` is reached, so the
returned state carries them even on the exception path; `df.iloc[-1]` on an
empty frame raises IndexError, caught by the bare `except` which returns 50.
NaN comparisons (`latest["Close"] > latest["SMA20"]` with SMA NaN) are
`False` and contribute 0. -/
def buying_recommendation (df : DataFrame) : Nat × DataFrame :=
  let sma := smaCol df.close
  let ema := emaCol df.close
  let rsiC := rsiCol df.close
  let dfOut : DataFrame := { df with sma20 := some sma, ema20 := some ema, rsi := some rsiC }
  match df.close.getLast? with
  | none => (50, dfOut)
  | some c =>
    let sSMA : Nat := match sma.getLast? with
      | some (some v) => if v < c then 40 else 0
      | _ => 0
    let sEMA : Nat := match ema.getLast? with
      | some v => if v < c then 40 else 0
      | none => 0
    let sRSI : Nat := match rsiC.getLast? with
      | some (some r) => if r < 70 then 20 else 0
      | _ => 0
    (min (sSMA + sEMA + sRSI) 100, dfOut)

/-- Round-half-to-even to an integer, the tie rule of Python `round`. -/
def roundHalfEven (q : ℚ) : ℤ :=
  if Int.fract q < 1 / 2 then ⌊q⌋
  else if 1 / 2 < Int.fract q then ⌊q⌋ + 1
  else if ⌊q⌋ % 2 = 0 then ⌊q⌋ else ⌊q⌋ + 1

/-- Python `round(x, 2)` on an exact value. -/
def round2 (q : ℚ) : ℚ := (roundHalfEven (q * 100) : ℚ) / 100

/-- A performance entry: a computed percentage, or the string `"N/A"` the
source stores for a window the series is too short for.  The two
constructors keep the outcomes distinguishable. -/
inductive PerfEntry where
  | pct : ℚ → PerfEntry
  | na : PerfEntry
deriving DecidableEq

/-- The fixed `(days, label)` pairs of `performance` (app.py line 65). -/
def perfPairs : List (Nat × String) :=
  [(21, "1 Month"), (63, "3 Month"), (126, "6 Month")]

/-- `performance(df)` (app.py lines 63-70): for each pair, if
`len(df) > days` then the rounded percent change between `iloc[-1]` and
`iloc[-days]` (index `len - days`), else `"N/A"`. -/
def performance (df : DataFrame) : List (String × PerfEntry) :=
  perfPairs.map (fun p =>
    (p.2,
      if p.1 < df.close.length then
        PerfEntry.pct (round2
          ((df.close.getLast?.getD 0 - df.close.getD (df.close.length - p.1) 0)
            / df.close.getD (df.close.length - p.1) 0 * 100))
      else PerfEntry.na))

/-- `pe_rating(pe)` (app.py lines 35-39); `none` models Python `None`. -/
def pe_rating : Option ℚ → String
  | none => "N/A"
  | some pe =>
      if pe ≤ 0 then "N/A"
      else if pe < 20 then "Excellent"
      else if pe ≤ 35 then "Good"
      else "Poor"

/-- The fundamentals fields the momentum computation reads; `none` models a
field missing from the provider's `info` dict. -/
structure Info where
  currentPrice : Option ℚ := none
  previousClose : Option ℚ := none
deriving DecidableEq

/-- The momentum computation (app.py lines 149-151):
`current = info.get("currentPrice", 0)`,
`prev = info.get("previousClose", current)`,
`round(((current - prev) / prev) * 100, 2)`.  The division is not guarded:
when `prev` resolves to 0 Python raises ZeroDivisionError, modelled as
`none`; a normal result is `some`. -/
def momentum (info : Info) : Option ℚ :=
  let current := info.currentPrice.getD 0
  let prev := info.previousClose.getD current
  if prev = 0 then none
  else some (round2 ((current - prev) / prev * 100))

/-- The condition of the first score contribution: the latest close is
strictly above the latest SMA-20 entry (false when the SMA is NaN). -/
def smaBuySignal (closes : List ℚ) : Bool :=
  match (smaCol closes).getLast?, closes.getLast? with
  | some (some v), some c => decide (v < c)
  | _, _ => false

/-- The condition of the second score contribution: the latest close is
strictly above the latest EMA-20 entry. -/
def emaBuySignal (closes : List ℚ) : Bool :=
  match (emaCol closes).getLast?, closes.getLast? with
  | some v, some c => decide (v < c)
  | _, _ => false

/-- The condition of the third score contribution: the latest RSI-14 entry
is defined and strictly below 70. -/
def rsiBuySignal (closes : List ℚ) : Bool :=
  match (rsiCol closes).getLast? with
  | some (some r) => decide (r < 70)
  | _ => false

/-- Spec-side name for `df["Close"].iloc[-1]` as an indexed access. -/
def latestClose (closes : List ℚ) : ℚ := closes.getD (closes.length - 1) 0

/-- Spec-side name for `df["Close"].iloc[-d]`, the close `d` bars from the
end. -/
def closeFromEnd (closes : List ℚ) (d : Nat) : ℚ := closes.getD (closes.length - d) 0

/-- 21 bars with closes rising linearly from 100 to 120. -/
def dfLin21 : DataFrame := { close := (List.range 21).map (fun k => (100 : ℚ) + k) }

/-- A two-bar series whose close rises. -/
def dfPair : DataFrame := { close := [100, 110] }

/-- Another short concrete frame, used to exhibit the column mutation. -/
def dfMut : DataFrame := { close := [50, 60] }

/-- A concrete non-empty frame for exercising the score decomposition. -/
def dfScoreW : DataFrame := { close := [10, 20] }

/-- 22 bars rising linearly, enough history for the 21-day window. -/
def dfW22 : DataFrame := { close := (List.range 22).map (fun k => (100 : ℚ) + k) }

/-- 15 strictly rising closes. -/
def csUp15 : List ℚ := (List.range 15).map (fun k => (100 : ℚ) + k)

/-- 15 constant closes. -/
def csFlat15 : List ℚ := List.replicate 15 (100 : ℚ)

/-- 20 distinct closes for the SMA witness. -/
def cs20 : List ℚ := (List.range 20).map (fun k => (k : ℚ))

/-! ### Helper lemmas about list indexing and the rolling combinators -/

lemma get?_eq_getD {α : Type} (l : List α) (n : Nat) (d : α) (h : n < l.length) :
    l.get? n = some (l.getD n d) := by
  rw [List.getD_eq_get?]
  cases hg : l.get? n with
  | none => exact absurd (List.get?_eq_none.mp hg) (by omega)
  | some v => rfl

lemma getLastD_eq_getD (l : List ℚ) : l.getLast?.getD 0 = l.getD (l.length - 1) 0 := by
  rw [List.getLast?_eq_get?, List.getD_eq_get?]

lemma getD_replicate_self (n : Nat) (c : ℚ) (i : Nat) (h : i < n) :
    (List.replicate n c).getD i 0 = c := by
  rw [List.getD_eq_get?, List.get?_eq_get (by simpa using h)]
  simp [List.get_replicate]

lemma zipWith_get?_eq {α β γ : Type} (f : α → β → γ) :
    ∀ (as : List α) (bs : List β) (i : Nat),
      (List.zipWith f as bs).get? i =
        (as.get? i).bind (fun a => (bs.get? i).map (fun b => f a b)) := by
  intro as
  induction as with
  | nil => intro bs i; simp
  | cons a as ih =>
    intro bs i
    cases bs with
    | nil => simp
    | cons b bs =>
      cases i with
      | zero => simp
      | succ j => simpa using ih bs j

lemma length_rollingMean (w : Nat) (xs : List (Option ℚ)) :
    (rollingMean w xs).length = xs.length := by
  simp [rollingMean]

lemma rollingMean_get? (w : Nat) (xs : List (Option ℚ)) (i : Nat) (h : i < xs.length) :
    (rollingMean w xs).get? i = some (rollingMeanAt w xs i) := by
  rw [rollingMean, List.get?_map, List.get?_range h]
  rfl

lemma emaCol_get? (closes : List ℚ) (i : Nat) (h : i < closes.length) :
    (emaCol closes).get? i = some (emaAt closes i) := by
  rw [emaCol, List.get?_map, List.get?_range h]
  rfl

lemma allSome_map_some : ∀ l : List ℚ, allSome (l.map some) = some l := by
  intro l
  induction l with
  | nil => rfl
  | cons a rest ih => simp [allSome, ih]

lemma allSome_mem : ∀ (l : List (Option ℚ)) (vs : List ℚ),
    allSome l = some vs → ∀ v ∈ vs, some v ∈ l := by
  intro l
  induction l with
  | nil =>
    intro vs h v hv
    simp [allSome] at h
    subst h
    simp at hv
  | cons x rest ih =>
    intro vs h v hv
    cases x with
    | none => simp [allSome] at h
    | some a =>
      rw [allSome] at h
      cases hrest : allSome rest with
      | none => rw [hrest] at h; simp at h
      | some vs' =>
        rw [hrest] at h
        simp at h
        subst h
        rcases List.mem_cons.mp hv with hv | hv
        · subst hv; exact List.mem_cons_self _ _
        · exact List.mem_cons_of_mem _ (ih vs' hrest v hv)

lemma rollingWindow_length (w : Nat) (xs : List (Option ℚ)) (i : Nat)
    (hw : w ≤ i + 1) (hi : i < xs.length) : (rollingWindow w xs i).length = w := by
  simp only [rollingWindow, List.length_take, List.length_drop]
  omega

lemma rollingWindow_get? (w : Nat) (xs : List (Option ℚ)) (i j : Nat)
    (hj : j < w) : (rollingWindow w xs i).get? j = xs.get? (i + 1 - w + j) := by
  rw [rollingWindow, List.get?_take hj, List.get?_drop]

lemma mem_of_mem_rollingWindow {w : Nat} {xs : List (Option ℚ)} {i : Nat} {x : Option ℚ}
    (h : x ∈ rollingWindow w xs i) : x ∈ xs := by
  have h1 := (List.take_sublist w (xs.drop (i + 1 - w))).mem h
  exact (List.drop_sublist (i + 1 - w) xs).mem h1

lemma deltaCol_length (closes : List ℚ) : (deltaCol closes).length = closes.length := by
  cases closes with
  | nil => rfl
  | cons c tl => simp [deltaCol]

lemma deltaCol_get?_succ (closes : List ℚ) (j : Nat) (h : j + 1 < closes.length) :
    (deltaCol closes).get? (j + 1) =
      some (some (closes.getD (j + 1) 0 - closes.getD j 0)) := by
  cases closes with
  | nil => simp at h
  | cons c tl =>
    show (List.zipWith (fun b a => some (b - a)) tl (c :: tl)).get? j = _
    rw [zipWith_get?_eq]
    have hj : j < tl.length := by simpa using Nat.lt_of_succ_lt_succ h
    rw [get?_eq_getD tl j 0 hj, get?_eq_getD (c :: tl) j 0 (Nat.lt_of_succ_lt h)]
    have htl : tl.getD j 0 = (c :: tl).getD (j + 1) 0 := rfl
    simp [htl]

lemma gainCol_length (closes : List ℚ) : (gainCol closes).length = closes.length := by
  simp [gainCol, deltaCol_length]

lemma lossCol_length (closes : List ℚ) : (lossCol closes).length = closes.length := by
  simp [lossCol, deltaCol_length]

lemma gainCol_get?_succ (closes : List ℚ) (j : Nat) (h : j + 1 < closes.length) :
    (gainCol closes).get? (j + 1) =
      some (some (if closes.getD (j + 1) 0 - closes.getD j 0 < 0 then 0
                  else closes.getD (j + 1) 0 - closes.getD j 0)) := by
  rw [gainCol, List.get?_map, deltaCol_get?_succ closes j h]
  rfl

lemma lossCol_get?_succ (closes : List ℚ) (j : Nat) (h : j + 1 < closes.length) :
    (lossCol closes).get? (j + 1) =
      some (some (if 0 < closes.getD (j + 1) 0 - closes.getD j 0 then 0
                  else -(closes.getD (j + 1) 0 - closes.getD j 0))) := by
  rw [lossCol, List.get?_map, deltaCol_get?_succ closes j h]
  rfl

lemma gainCol_entry_nonneg (closes : List ℚ) :
    ∀ x ∈ gainCol closes, ∀ v : ℚ, x = some v → 0 ≤ v := by
  intro x hx v hv
  rcases List.mem_map.mp hx with ⟨y, _, hy⟩
  cases y with
  | none => rw [← hy] at hv; simp at hv
  | some d =>
    rw [← hy] at hv
    have hv2 : (if d < 0 then (0 : ℚ) else d) = v := by simpa using hv
    rw [← hv2]
    split
    · exact le_rfl
    next hd => linarith [not_lt.mp hd]

lemma lossCol_entry_nonneg (closes : List ℚ) :
    ∀ x ∈ lossCol closes, ∀ v : ℚ, x = some v → 0 ≤ v := by
  intro x hx v hv
  rcases List.mem_map.mp hx with ⟨y, _, hy⟩
  cases y with
  | none => rw [← hy] at hv; simp at hv
  | some d =>
    rw [← hy] at hv
    have hv2 : (if 0 < d then (0 : ℚ) else -d) = v := by simpa using hv
    rw [← hv2]
    split
    · exact le_rfl
    next hd => linarith [not_lt.mp hd]

lemma sum_take_drop (xs : List ℚ) (a : Nat) :
    ∀ w : Nat, a + w ≤ xs.length →
      ((xs.drop a).take w).sum = ∑ j ∈ Finset.range w, xs.getD (a + j) 0 := by
  intro w
  induction w with
  | zero => intro _; simp
  | succ w ih =>
    intro h
    rw [List.take_succ, List.sum_append, ih (by omega), Finset.sum_range_succ]
    have hw : (xs.drop a).get? w = some (xs.getD (a + w) 0) := by
      rw [List.get?_drop, get?_eq_getD xs (a + w) 0 (by omega)]
    have : (xs.drop a)[w]? = some (xs.getD (a + w) 0) := by
      rw [← List.get?_eq_getElem?]
      exact hw
    rw [this]
    simp

lemma rollingMean_get?_nonneg (w : Nat) (xs : List (Option ℚ))
    (hxs : ∀ x ∈ xs, ∀ v : ℚ, x = some v → 0 ≤ v) (i : Nat) (m : ℚ)
    (h : (rollingMean w xs).get? i = some (some m)) : 0 ≤ m := by
  have hi : i < xs.length := by
    by_contra hlt
    rw [List.get?_eq_none.mpr (by rw [length_rollingMean]; omega)] at h
    exact Option.noConfusion h
  rw [rollingMean_get? w xs i hi] at h
  have hm : rollingMeanAt w xs i = some m := Option.some.inj h
  rw [rollingMeanAt] at hm
  split at hm
  · cases hall : allSome (rollingWindow w xs i) with
    | none => rw [hall] at hm; exact Option.noConfusion hm
    | some vs =>
      rw [hall] at hm
      have hmv : vs.sum / (w : ℚ) = m := Option.some.inj hm
      have hnn : 0 ≤ vs.sum := by
        refine List.sum_nonneg ?_
        intro v hv
        exact hxs _ (mem_of_mem_rollingWindow (allSome_mem _ _ hall v hv)) v rfl
      rw [← hmv]
      exact div_nonneg hnn (by positivity)
  next => exact Option.noConfusion hm


lemma rollingWindow_map_some (closes : List ℚ) (w i : Nat) :
    rollingWindow w (closes.map some) i = ((closes.drop (i + 1 - w)).take w).map some := by
  rw [rollingWindow, ← List.map_drop, ← List.map_take]

lemma smaCol_get?_of_ge (closes : List ℚ) (i : Nat) (h19 : 19 ≤ i) (hi : i < closes.length) :
    (smaCol closes).get? i =
      some (some ((∑ j ∈ Finset.Icc (i - 19) i, closes.getD j 0) / 20)) := by
  rw [smaCol, rollingMean_get? 20 _ i (by simpa using hi)]
  rw [rollingMeanAt, if_pos (by omega : 20 ≤ i + 1), rollingWindow_map_some, allSome_map_some]
  have ha : i + 1 - 20 = i - 19 := by omega
  rw [ha]
  simp only [Option.map_some']
  rw [sum_take_drop closes (i - 19) 20 (by omega)]
  have hicc : Finset.Icc (i - 19) i = Finset.Ico (i - 19) (i + 1) := by
    rw [Nat.Icc_eq_range', Nat.Ico_eq_range']
  rw [hicc, Finset.sum_Ico_eq_sum_range]
  have h20 : i + 1 - (i - 19) = 20 := by omega
  rw [h20]
  norm_num

lemma smaCol_get?_of_lt (closes : List ℚ) (i : Nat) (h19 : i < 19) (hi : i < closes.length) :
    (smaCol closes).get? i = some none := by
  rw [smaCol, rollingMean_get? 20 _ i (by simpa using hi)]
  rw [rollingMeanAt, if_neg (by omega)]

lemma emaAt_replicate (n : Nat) (C : ℚ) : ∀ i : Nat, i < n → emaAt (List.replicate n C) i = C := by
  intro i
  induction i with
  | zero =>
    intro h
    rw [emaAt, getD_replicate_self n C 0 h]
  | succ j ih =>
    intro h
    rw [emaAt, getD_replicate_self n C (j + 1) h, ih (by omega)]
    ring

lemma lossWindow_of_monotone (closes : List ℚ) (h15 : 15 ≤ closes.length)
    (hmono : ∀ j < closes.length - 1, closes.getD j 0 ≤ closes.getD (j + 1) 0) :
    rollingWindow 14 (lossCol closes) (closes.length - 1) =
      (List.replicate 14 (0 : ℚ)).map some := by
  apply List.ext
  intro n
  by_cases hn : n < 14
  · rw [rollingWindow_get? 14 _ _ n hn]
    have hidx : closes.length - 1 + 1 - 14 + n = closes.length - 14 + n := by omega
    rw [hidx]
    obtain ⟨j, hj⟩ : ∃ j, closes.length - 14 + n = j + 1 := ⟨closes.length - 14 + n - 1, by omega⟩
    rw [hj, lossCol_get?_succ closes j (by omega)]
    have hd : 0 ≤ closes.getD (j + 1) 0 - closes.getD j 0 := by
      have := hmono j (by omega)
      linarith
    have hval : (if 0 < closes.getD (j + 1) 0 - closes.getD j 0 then (0 : ℚ)
        else -(closes.getD (j + 1) 0 - closes.getD j 0)) = 0 := by
      split
      · rfl
      next hnd =>
        have h0 : closes.getD (j + 1) 0 - closes.getD j 0 = 0 := le_antisymm (not_lt.mp hnd) hd
        rw [h0]
        ring
    rw [hval, List.get?_map, get?_eq_getD (List.replicate 14 (0 : ℚ)) n 0 (by simpa using hn),
      getD_replicate_self 14 0 n hn]
    rfl
  · have h1 : (rollingWindow 14 (lossCol closes) (closes.length - 1)).get? n = none := by
      apply List.get?_eq_none.mpr
      rw [rollingWindow_length 14 _ _ (by omega) (by rw [lossCol_length]; omega)]
      omega
    have h2 : ((List.replicate 14 (0 : ℚ)).map some).get? n = none := by
      apply List.get?_eq_none.mpr
      simp only [List.length_map, List.length_replicate]
      omega
    rw [h1, h2]

lemma gainWindow_of_monotone (closes : List ℚ) (h15 : 15 ≤ closes.length)
    (hmono : ∀ j < closes.length - 1, closes.getD j 0 ≤ closes.getD (j + 1) 0) :
    rollingWindow 14 (gainCol closes) (closes.length - 1) =
      ((List.range 14).map (fun k =>
        closes.getD (closes.length - 14 + k) 0 - closes.getD (closes.length - 14 + k - 1) 0)).map some := by
  apply List.ext
  intro n
  by_cases hn : n < 14
  · rw [rollingWindow_get? 14 _ _ n hn]
    have hidx : closes.length - 1 + 1 - 14 + n = closes.length - 14 + n := by omega
    rw [hidx]
    obtain ⟨j, hj⟩ : ∃ j, closes.length - 14 + n = j + 1 := ⟨closes.length - 14 + n - 1, by omega⟩
    rw [hj, gainCol_get?_succ closes j (by omega)]
    have hd : 0 ≤ closes.getD (j + 1) 0 - closes.getD j 0 := by
      have := hmono j (by omega)
      linarith
    have hval : (if closes.getD (j + 1) 0 - closes.getD j 0 < 0 then (0 : ℚ)
        else closes.getD (j + 1) 0 - closes.getD j 0) = closes.getD (j + 1) 0 - closes.getD j 0 := by
      split
      next hnd => linarith
      · rfl
    rw [hval]
    have hrhs : (((List.range 14).map (fun k =>
        closes.getD (closes.length - 14 + k) 0 - closes.getD (closes.length - 14 + k - 1) 0)).map some).get? n
        = some (some (closes.getD (closes.length - 14 + n) 0 - closes.getD (closes.length - 14 + n - 1) 0)) := by
      rw [List.get?_map, List.get?_map, List.get?_range hn]
      rfl
    have hj1 : closes.length - 14 + n - 1 = j := by omega
    rw [hrhs, hj1, hj]
  · have h1 : (rollingWindow 14 (gainCol closes) (closes.length - 1)).get? n = none := by
      apply List.get?_eq_none.mpr
      rw [rollingWindow_length 14 _ _ (by omega) (by rw [gainCol_length]; omega)]
      omega
    have h2 : ((((List.range 14).map (fun k =>
        closes.getD (closes.length - 14 + k) 0 - closes.getD (closes.length - 14 + k - 1) 0)).map some)).get? n = none := by
      apply List.get?_eq_none.mpr
      simp only [List.length_map, List.length_range]
      omega
    rw [h1, h2]

lemma avgLoss_of_monotone (closes : List ℚ) (h15 : 15 ≤ closes.length)
    (hmono : ∀ j < closes.length - 1, closes.getD j 0 ≤ closes.getD (j + 1) 0) :
    (rollingMean 14 (lossCol closes)).get? (closes.length - 1) = some (some 0) := by
  have hi : closes.length - 1 < (lossCol closes).length := by
    rw [lossCol_length]
    omega
  rw [rollingMean_get? 14 _ _ hi, rollingMeanAt, if_pos (by omega : 14 ≤ closes.length - 1 + 1)]
  rw [lossWindow_of_monotone closes h15 hmono, allSome_map_some]
  simp [List.sum_replicate]

lemma avgGain_of_monotone_pos (closes : List ℚ) (h15 : 15 ≤ closes.length)
    (hmono : ∀ j < closes.length - 1, closes.getD j 0 ≤ closes.getD (j + 1) 0)
    (hgain : ∃ k < closes.length, closes.length - 14 ≤ k ∧ closes.getD (k - 1) 0 < closes.getD k 0) :
    ∃ g : ℚ, 0 < g ∧
      (rollingMean 14 (gainCol closes)).get? (closes.length - 1) = some (some g) := by
  have hi : closes.length - 1 < (gainCol closes).length := by
    rw [gainCol_length]
    omega
  rw [rollingMean_get? 14 _ _ hi, rollingMeanAt, if_pos (by omega : 14 ≤ closes.length - 1 + 1)]
  rw [gainWindow_of_monotone closes h15 hmono, allSome_map_some]
  simp only [Option.map_some']
  refine ⟨_, ?_, rfl⟩
  apply div_pos ?_ (by norm_num : (0 : ℚ) < ((14 : ℕ) : ℚ))
  have hnn : ∀ x ∈ (List.range 14).map (fun k =>
      closes.getD (closes.length - 14 + k) 0 - closes.getD (closes.length - 14 + k - 1) 0), 0 ≤ x := by
    intro x hx
    rcases List.mem_map.mp hx with ⟨k, hk, hxe⟩
    have hk14 : k < 14 := List.mem_range.mp hk
    obtain ⟨j, hj⟩ : ∃ j, closes.length - 14 + k = j + 1 := ⟨closes.length - 14 + k - 1, by omega⟩
    rw [← hxe, hj]
    simp only [Nat.add_sub_cancel]
    have := hmono j (by omega)
    linarith
  obtain ⟨k, hk, hka, hkgain⟩ := hgain
  set f : Nat → ℚ := fun k =>
    closes.getD (closes.length - 14 + k) 0 - closes.getD (closes.length - 14 + k - 1) 0 with hf
  have hn0 : k - (closes.length - 14) < 14 := by omega
  have hmem : f (k - (closes.length - 14)) ∈ (List.range 14).map f :=
    List.mem_map.mpr ⟨k - (closes.length - 14), List.mem_range.mpr hn0, rfl⟩
  have hval : f (k - (closes.length - 14)) =
      closes.getD k 0 - closes.getD (k - 1) 0 := by
    rw [hf]
    have e1 : closes.length - 14 + (k - (closes.length - 14)) = k := by omega
    simp only []
    rw [e1]
  have hpos : 0 < f (k - (closes.length - 14)) := by
    rw [hval]
    linarith
  calc 0 < f (k - (closes.length - 14)) := hpos
    _ ≤ ((List.range 14).map f).sum := List.single_le_sum hnn _ hmem

lemma rsi_of_monotone_gain (closes : List ℚ) (h15 : 15 ≤ closes.length)
    (hmono : ∀ j < closes.length - 1, closes.getD j 0 ≤ closes.getD (j + 1) 0)
    (hgain : ∃ k < closes.length, closes.length - 14 ≤ k ∧ closes.getD (k - 1) 0 < closes.getD k 0) :
    (rsiCol closes).get? (closes.length - 1) = some (some 100) := by
  obtain ⟨g, hg, hG⟩ := avgGain_of_monotone_pos closes h15 hmono hgain
  have hL := avgLoss_of_monotone closes h15 hmono
  rw [rsiCol, zipWith_get?_eq, hG, hL]
  simp [rsiAt, ne_of_gt hg]

lemma score_decomposition (df : DataFrame) (h : df.close ≠ []) :
    (buying_recommendation df).1 =
      min ((if smaBuySignal df.close then 40 else 0) +
           (if emaBuySignal df.close then 40 else 0) +
           (if rsiBuySignal df.close then 20 else 0)) 100 := by
  obtain ⟨c, hc⟩ : ∃ c, df.close.getLast? = some c := by
    cases hg : df.close.getLast? with
    | none => exact absurd (List.getLast?_eq_none.mp hg) h
    | some c => exact ⟨c, rfl⟩
  rcases hs : (smaCol df.close).getLast? with _ | (_ | v) <;>
    rcases he : (emaCol df.close).getLast? with _ | w <;>
      rcases hr : (rsiCol df.close).getLast? with _ | (_ | r) <;>
        simp [buying_recommendation, smaBuySignal, emaBuySignal, rsiBuySignal, hc, hs, he, hr]

lemma score_mem_aux (df : DataFrame) (h : df.close ≠ []) :
    (buying_recommendation df).1 ∈ ({0, 20, 40, 60, 80, 100} : Finset ℕ) := by
  rw [score_decomposition df h]
  cases hS : smaBuySignal df.close <;> cases hE : emaBuySignal df.close <;>
    cases hR : rsiBuySignal df.close <;> decide

lemma score_of_empty (df : DataFrame) (h : df.close = []) :
    (buying_recommendation df).1 = 50 := by
  simp [buying_recommendation, h]

/-! ### Claim theorems -/

/-- Claim C1 (corrected): the scoring operation returns the sentinel 50 exactly
when the price series is empty, not whenever it has fewer than 20 bars.  For a
non-empty short series the NaN-valued SMA/RSI comparisons contribute 0 but the
always-defined EMA comparison still scores, so the result is a genuinely
computed value in {0, 20, 40, 60, 80, 100}, never 50. -/
theorem score_fifty_iff_empty (df : DataFrame) :
    (buying_recommendation df).1 = 50 ↔ df.close = [] := by
  constructor
  · intro h50
    by_contra hne
    have hmem := score_mem_aux df hne
    rw [h50] at hmem
    exact absurd hmem (by decide)
  · exact score_of_empty df

/-- Claim C1 counterexample: a 2-bar series — fewer than 20 bars — for which
the scoring operation returns the computed score 40, not the claimed
sentinel 50. -/
theorem score_two_bars_is_forty :
    dfPair.close.length < 20 ∧ (buying_recommendation dfPair).1 = 40 := by
  with_unfolding_all decide

/-- Claim C2 (code bug): the momentum line is not guarded by any handler; a
fundamentals snapshot with currentPrice and previousClose both missing
resolves current = prev = 0 and Python raises ZeroDivisionError on
`(0 - 0) / 0` (modelled as `none`), aborting the whole report instead of
degrading to a placeholder as the error-handling policy requires. -/
theorem momentum_missing_fields_raises :
    momentum { currentPrice := none, previousClose := none } = none := rfl

/-- Claim C3 counterexample: with exactly 21 bars the guard `len(df) > 21`
fails, so the "1 Month" window is reported unavailable, not 20.0 as
claimed. -/
theorem perf21_one_month_unavailable :
    dfLin21.close.length = 21 ∧
    (performance dfLin21).lookup "1 Month" = some PerfEntry.na := by
  with_unfolding_all decide

/-- Claim C3 (amended): on the 21-bar linearly rising series every one of the
three windows — "1 Month" included — is reported unavailable, because each
window requires strictly more bars than its day count. -/
theorem perf21_all_unavailable :
    (performance dfLin21).lookup "1 Month" = some PerfEntry.na ∧
    (performance dfLin21).lookup "3 Month" = some PerfEntry.na ∧
    (performance dfLin21).lookup "6 Month" = some PerfEntry.na := by
  with_unfolding_all decide

/-- Claim C4 counterexample: the scoring operation does not leave the frame it
was given unchanged — the returned frame differs from the input frame, the
three indicator columns having been assigned into it. -/
theorem buying_mutates_frame : (buying_recommendation dfMut).2 ≠ dfMut := by
  with_unfolding_all decide

/-- Claim C4 (amended): the scoring operation's only frame effect is adding
the derived SMA20/EMA20/RSI columns; the fetched close series itself is left
unchanged. -/
theorem buying_touches_only_indicator_columns (df : DataFrame) :
    (buying_recommendation df).2.close = df.close ∧
    (buying_recommendation df).2.sma20 = some (smaCol df.close) ∧
    (buying_recommendation df).2.ema20 = some (emaCol df.close) ∧
    (buying_recommendation df).2.rsi = some (rsiCol df.close) := by
  cases hc : df.close.getLast? <;> simp [buying_recommendation, hc]

/-- Claim C6: on the successful (non-fallback) path the score equals the
clamped sum of the three independent contributions — 40 for close above
SMA-20, 40 for close above EMA-20, 20 for RSI-14 below 70, each 0 otherwise
(a NaN indicator compares false) — and therefore always lies in
{0, 20, 40, 60, 80, 100}. -/
theorem score_is_clamped_contribution_sum (df : DataFrame) (h : df.close ≠ []) :
    (buying_recommendation df).1 =
      min ((if smaBuySignal df.close then 40 else 0) +
           (if emaBuySignal df.close then 40 else 0) +
           (if rsiBuySignal df.close then 20 else 0)) 100 ∧
    (buying_recommendation df).1 ∈ ({0, 20, 40, 60, 80, 100} : Finset ℕ) :=
  ⟨score_decomposition df h, score_mem_aux df h⟩

/-- Claim C6 witness: the clamped-sum decomposition evaluated on a concrete
2-bar frame. -/
theorem score_contribution_sum_witness :
    dfScoreW.close ≠ [] ∧
    ((buying_recommendation dfScoreW).1 =
      min ((if smaBuySignal dfScoreW.close then 40 else 0) +
           (if emaBuySignal dfScoreW.close then 40 else 0) +
           (if rsiBuySignal dfScoreW.close then 20 else 0)) 100 ∧
     (buying_recommendation dfScoreW).1 ∈ ({0, 20, 40, 60, 80, 100} : Finset ℕ)) :=
  ⟨by decide, score_is_clamped_contribution_sum dfScoreW (by decide)⟩

/-- Claim C5: for each of the fixed (dayCount, label) pairs, the
performance-window operation maps the label to the rounded percent change
between the latest close and the close dayCount bars from the end when the
series has strictly more bars than dayCount, and to the distinguishable
unavailable marker otherwise. -/
theorem performance_window_spec (df : DataFrame) (d : Nat) (l : String)
    (h : (d, l) ∈ perfPairs) :
    (performance df).lookup l =
      some (if d < df.close.length then
          PerfEntry.pct (round2 ((latestClose df.close - closeFromEnd df.close d)
            / closeFromEnd df.close d * 100))
        else PerfEntry.na) := by
  simp only [perfPairs, List.mem_cons, List.mem_singleton, Prod.mk.injEq,
    List.not_mem_nil, or_false] at h
  rcases h with ⟨rfl, rfl⟩ | ⟨rfl, rfl⟩ | ⟨rfl, rfl⟩ <;>
    · simp only [latestClose, closeFromEnd]
      rw [← getLastD_eq_getD df.close]
      rfl

/-- Claim C5 witness: the "1 Month" window on a concrete 22-bar frame. -/
theorem performance_window_witness :
    (21, "1 Month") ∈ perfPairs ∧
    (performance dfW22).lookup "1 Month" =
      some (if 21 < dfW22.close.length then
          PerfEntry.pct (round2 ((latestClose dfW22.close - closeFromEnd dfW22.close 21)
            / closeFromEnd dfW22.close 21 * 100))
        else PerfEntry.na) :=
  ⟨by decide, performance_window_spec dfW22 21 "1 Month" (by decide)⟩

/-- Claim C7 (corrected): every defined RSI-14 entry lies in [0, 100], and for
a monotonically non-decreasing close series of length ≥ 15 the trailing loss
average is zero; the RSI at the last position then equals exactly 100
provided at least one of the last 14 moves is a strict gain.  (With every
move flat the 0/0 ratio makes the RSI NaN rather than 100, which is why the
strict-gain proviso is needed.) -/
theorem rsi_bounds_and_saturation :
    (∀ closes : List ℚ, ∀ i : Nat, ∀ r : ℚ,
        (rsiCol closes).get? i = some (some r) → 0 ≤ r ∧ r ≤ 100) ∧
    (∀ closes : List ℚ, 15 ≤ closes.length →
      (∀ j < closes.length - 1, closes.getD j 0 ≤ closes.getD (j + 1) 0) →
      (rollingMean 14 (lossCol closes)).get? (closes.length - 1) = some (some 0) ∧
      ((∃ k < closes.length, closes.length - 14 ≤ k ∧
          closes.getD (k - 1) 0 < closes.getD k 0) →
        (rsiCol closes).get? (closes.length - 1) = some (some 100))) := by
  constructor
  · intro closes i r h
    rw [rsiCol, zipWith_get?_eq] at h
    cases hG : (rollingMean 14 (gainCol closes)).get? i with
    | none => rw [hG] at h; exact Option.noConfusion h
    | some og =>
      cases hL : (rollingMean 14 (lossCol closes)).get? i with
      | none => rw [hG, hL] at h; exact Option.noConfusion h
      | some ol =>
        rw [hG, hL] at h
        have h2 : rsiAt og ol = some r := by simpa using h
        cases og with
        | none => exact absurd h2 (by simp [rsiAt])
        | some g =>
          cases ol with
          | none => exact absurd h2 (by simp [rsiAt])
          | some l =>
            have hg : 0 ≤ g := rollingMean_get?_nonneg 14 _ (gainCol_entry_nonneg closes) i g hG
            have hl : 0 ≤ l := rollingMean_get?_nonneg 14 _ (lossCol_entry_nonneg closes) i l hL
            simp only [rsiAt] at h2
            split at h2
            · split at h2
              · exact Option.noConfusion h2
              · have hr : (100 : ℚ) = r := Option.some.inj h2
                rw [← hr]
                norm_num
            next hl0 =>
              have hr : 100 - 100 / (1 + g / l) = r := Option.some.inj h2
              have hlpos : 0 < l := lt_of_le_of_ne hl (Ne.symm hl0)
              have hgl : 0 ≤ g / l := div_nonneg hg hlpos.le
              have hone : (0 : ℚ) < 1 + g / l := by linarith
              have hdivpos : 0 < 100 / (1 + g / l) := by positivity
              have hdivle : 100 / (1 + g / l) ≤ 100 := by
                rw [div_le_iff hone]
                nlinarith
              rw [← hr]
              constructor <;> linarith
  · intro closes h15 hmono
    exact ⟨avgLoss_of_monotone closes h15 hmono,
      fun hgain => rsi_of_monotone_gain closes h15 hmono hgain⟩

/-- Claim C7 counterexample: 15 constant closes form a monotonically
non-decreasing series of length ≥ 15 whose loss average is indeed zero, yet
the RSI at the last position is NaN (the 0/0 ratio), not 100 as claimed. -/
theorem rsi_flat_series_is_nan :
    csFlat15.length = 15 ∧
    (rollingMean 14 (lossCol csFlat15)).get? 14 = some (some 0) ∧
    (rsiCol csFlat15).get? 14 = some none := by
  with_unfolding_all decide

/-- Claim C7 witness: the strictly rising 15-bar series has loss average 0,
RSI exactly 100 at the last position, and that RSI value obeys the [0, 100]
bound. -/
theorem rsi_saturation_witness :
    (rollingMean 14 (lossCol csUp15)).get? (csUp15.length - 1) = some (some 0) ∧
    (rsiCol csUp15).get? (csUp15.length - 1) = some (some 100) ∧
    (0 ≤ (100 : ℚ) ∧ (100 : ℚ) ≤ 100) := by
  have hb := rsi_bounds_and_saturation.2 csUp15 (by decide)
    (by with_unfolding_all decide)
  have hg := hb.2 ⟨14, by decide, by decide, by with_unfolding_all decide⟩
  exact ⟨hb.1, hg, rsi_bounds_and_saturation.1 csUp15 (csUp15.length - 1) 100 hg⟩

/-- Claim C8: the EMA-20 column satisfies the adjust=false recurrence
EMA[0] = close[0], EMA[i+1] = close[i+1]·(2/21) + EMA[i]·(1 − 2/21), and on a
constant series of length ≥ 2 every EMA-20 entry equals exactly the constant. -/
theorem ema_recurrence_and_constant :
    (∀ closes : List ℚ, 0 < closes.length →
        (emaCol closes).get? 0 = some (closes.getD 0 0)) ∧
    (∀ closes : List ℚ, ∀ i : Nat, i + 1 < closes.length →
        (emaCol closes).get? (i + 1) =
          some (closes.getD (i + 1) 0 * (2 / 21) +
                (emaCol closes).getD i 0 * (1 - 2 / 21))) ∧
    (∀ C : ℚ, ∀ n : Nat, 2 ≤ n → ∀ i < n,
        (emaCol (List.replicate n C)).get? i = some C) := by
  refine ⟨?_, ?_, ?_⟩
  · intro closes h
    rw [emaCol_get? closes 0 h]
    simp only [emaAt]
  · intro closes i h
    rw [emaCol_get? closes (i + 1) h]
    have hid : (emaCol closes).getD i 0 = emaAt closes i := by
      rw [List.getD_eq_get?, emaCol_get? closes i (by omega)]
      rfl
    rw [hid]
    simp only [emaAt]
  · intro C n h2 i hin
    rw [emaCol_get? _ i (by simpa using hin), emaAt_replicate n C i hin]

/-- Claim C8 witness: the recurrence seed and the constant-series property on
a concrete 3-bar constant series. -/
theorem ema_constant_witness :
    (emaCol (List.replicate 3 (7 : ℚ))).get? 0 =
      some ((List.replicate 3 (7 : ℚ)).getD 0 0) ∧
    (emaCol (List.replicate 3 (7 : ℚ))).get? 2 = some 7 :=
  ⟨ema_recurrence_and_constant.1 _ (by decide),
   ema_recurrence_and_constant.2.2 7 3 (by decide) 2 (by decide)⟩

/-- Claim C9: the SMA-20 entry at position i ≥ 19 equals the arithmetic mean
of the closes at positions [i−19, i] (exactly, hence within any tolerance);
positions i < 19 are NaN; at the last position of a series with ≥ 20 bars it
is the mean of the last 20 closes. -/
theorem sma_window_mean :
    (∀ closes : List ℚ, ∀ i : Nat, 19 ≤ i → i < closes.length →
        (smaCol closes).get? i =
          some (some ((∑ j ∈ Finset.Icc (i - 19) i, closes.getD j 0) / 20))) ∧
    (∀ closes : List ℚ, ∀ i : Nat, i < 19 → i < closes.length →
        (smaCol closes).get? i = some none) ∧
    (∀ closes : List ℚ, 20 ≤ closes.length →
        (smaCol closes).get? (closes.length - 1) =
          some (some ((∑ j ∈ Finset.Icc (closes.length - 20) (closes.length - 1),
            closes.getD j 0) / 20))) := by
  refine ⟨fun closes i h19 hi => smaCol_get?_of_ge closes i h19 hi,
          fun closes i h19 hi => smaCol_get?_of_lt closes i h19 hi, ?_⟩
  intro closes hlen
  have h1 : closes.length - 1 - 19 = closes.length - 20 := by omega
  have h := smaCol_get?_of_ge closes (closes.length - 1) (by omega) (by omega)
  rw [h1] at h
  exact h

/-- Claim C9 witness: the SMA-20 at position 19 of a concrete 20-bar series,
and the NaN entry at position 0. -/
theorem sma_window_mean_witness :
    (smaCol cs20).get? 19 =
      some (some ((∑ j ∈ Finset.Icc (19 - 19) 19, cs20.getD j 0) / 20)) ∧
    (smaCol cs20).get? 0 = some none :=
  ⟨sma_window_mean.1 cs20 19 (by decide) (by decide),
   sma_window_mean.2.1 cs20 0 (by decide) (by decide)⟩

/-- Claim C10: the P/E rating is "N/A" for a missing or non-positive input,
"Excellent" on (0, 20), "Good" on [20, 35], "Poor" above 35, with the
concrete examples 15, 25, 40 and −5 behaving as stated. -/
theorem pe_rating_classification :
    pe_rating none = "N/A" ∧
    (∀ q : ℚ, q ≤ 0 → pe_rating (some q) = "N/A") ∧
    (∀ q : ℚ, 0 < q → q < 20 → pe_rating (some q) = "Excellent") ∧
    (∀ q : ℚ, 20 ≤ q → q ≤ 35 → pe_rating (some q) = "Good") ∧
    (∀ q : ℚ, 35 < q → pe_rating (some q) = "Poor") ∧
    pe_rating (some 15) = "Excellent" ∧ pe_rating (some 25) = "Good" ∧
    pe_rating (some 40) = "Poor" ∧ pe_rating (some (-5)) = "N/A" := by
  refine ⟨rfl, ?_, ?_, ?_, ?_, ?_, ?_, ?_, ?_⟩
  · intro q hq
    simp only [pe_rating, if_pos hq]
  · intro q h0 h20
    simp only [pe_rating, if_neg (by linarith : ¬ q ≤ 0), if_pos h20]
  · intro q h20 h35
    simp only [pe_rating, if_neg (by linarith : ¬ q ≤ 0),
      if_neg (by linarith : ¬ q < 20), if_pos h35]
  · intro q h35
    simp only [pe_rating, if_neg (by linarith : ¬ q ≤ 0),
      if_neg (by linarith : ¬ q < 20), if_neg (by linarith : ¬ q ≤ 35)]
  · with_unfolding_all decide
  · with_unfolding_all decide
  · with_unfolding_all decide
  · with_unfolding_all decide

/-- Claim C10 witness: the classification applied at concrete inputs in each
band. -/
theorem pe_rating_witness :
    ((-3 : ℚ) ≤ 0 ∧ pe_rating (some (-3)) = "N/A") ∧
    ((0 : ℚ) < 18 ∧ (18 : ℚ) < 20 ∧ pe_rating (some 18) = "Excellent") ∧
    ((20 : ℚ) ≤ 30 ∧ (30 : ℚ) ≤ 35 ∧ pe_rating (some 30) = "Good") ∧
    ((35 : ℚ) < 50 ∧ pe_rating (some 50) = "Poor") :=
  ⟨⟨by norm_num, pe_rating_classification.2.1 (-3) (by norm_num)⟩,
   ⟨by norm_num, by norm_num, pe_rating_classification.2.2.1 18 (by norm_num) (by norm_num)⟩,
   ⟨by norm_num, by norm_num, pe_rating_classification.2.2.2.1 30 (by norm_num) (by norm_num)⟩,
   ⟨by norm_num, pe_rating_classification.2.2.2.2.1 50 (by norm_num)⟩⟩

end StockApp
